import Mathlib

/-!
Verification of `astrbot_plugin_steam_topsellers` (src/main.py).

Python strings are modelled as `List Char`; Python `set` as `Finset (List Char)`.
Each embedded definition is translated from the named function in src/main.py.
-/

/-- Python strings modelled as lists of characters. -/
abbrev Str := List Char

/-- Convert a Lean string literal to the `List Char` model. -/
def str (s : String) : Str := s.data

/-- Python whitespace class `\s` restricted to the ASCII whitespace characters
(space, tab, newline, carriage return, vertical tab, form feed). -/
def isPySpace (c : Char) : Bool :=
  c = ' ' || c = '\t' || c = '\n' || c = '\r' || c = '\x0b' || c = '\x0c'

/-- Python `str.strip()`: drop whitespace from both ends. -/
def pyStrip (s : Str) : Str :=
  ((s.dropWhile isPySpace).reverse.dropWhile isPySpace).reverse

/-- Whether `pat` is a leading segment of `s` (used for substring search). -/
def startsWithL : Str → Str → Bool
  | [], _ => true
  | _ :: _, [] => false
  | p :: ps, c :: cs => p = c && startsWithL ps cs

/-- Python `pat in s` substring test. -/
def containsSub (pat : Str) : Str → Bool
  | [] => startsWithL pat []
  | c :: rest => startsWithL pat (c :: rest) || containsSub pat rest

/-- Value of a decimal digit string, as computed by Python `int` on digit-only input. -/
def digitsToNat (ds : Str) : Nat :=
  ds.foldl (fun acc c => 10 * acc + (c.toNat - '0'.toNat)) 0

/-- Regex fragment `(\d{2})` at the current position: two digit characters.
Any further characters are left unconsumed (`re.match` anchors only the start). -/
def tryMinute : Str → Option Str
  | c1 :: c2 :: _ => if c1.isDigit && c2.isDigit then some [c1, c2] else none
  | _ => none

/-- Regex fragment `:(\d{2})` at the current position. -/
def tryColonMinute : Str → Option Str
  | c :: rest => if c = ':' then tryMinute rest else none
  | [] => none

/-- Alternative of `(\d{1,2}):?(\d{2})` where the hour group takes two digits.
Greedy `:?` tries the colon-present continuation before the colon-absent one. -/
def twoDigitHourAlt (d1 d2 : Char) (rest : Str) : Option (Str × Str) :=
  if d1.isDigit && d2.isDigit then
    match tryColonMinute rest with
    | some m => some ([d1, d2], m)
    | none =>
      match tryMinute rest with
      | some m => some ([d1, d2], m)
      | none => none
  else none

/-- Alternative of `(\d{1,2}):?(\d{2})` where the hour group takes one digit. -/
def oneDigitHourAlt (d1 : Char) (rest : Str) : Option (Str × Str) :=
  if d1.isDigit then
    match tryColonMinute rest with
    | some m => some ([d1], m)
    | none =>
      match tryMinute rest with
      | some m => some ([d1], m)
      | none => none
  else none

/-- `re.match` of the pattern `(\d{1,2}):?(\d{2})`: anchored at the start of the
string, greedy hour group with backtracking (two digits tried before one),
trailing characters ignored. Returns the captured (hour, minute) digit groups. -/
def matchTimePattern : Str → Option (Str × Str)
  | [] => none
  | [d1] => oneDigitHourAlt d1 []
  | d1 :: d2 :: rest =>
    match twoDigitHourAlt d1 d2 rest with
    | some r => some r
    | none => oneDigitHourAlt d1 (d2 :: rest)

/-- `SteamTopSellers.parse_time_string` (src/main.py lines 305-327): replace the
full-width colon with the ASCII one, match `(\d{1,2}):?(\d{2})` at the start,
convert the groups with `int`, and range-check hour 0-23 and minute 0-59.
The `ValueError` branch of the source is unreachable (both groups are digit-only),
so the embedding has no error case for `int`. -/
def parse_time_string (time_str : Str) : Option (Nat × Nat) :=
  let t := time_str.map (fun c => if c = '：' then ':' else c)
  match matchTimePattern t with
  | none => none
  | some (hs, ms) =>
    let hour := digitsToNat hs
    let minute := digitsToNat ms
    if hour ≤ 23 && minute ≤ 59 then some (hour, minute) else none

/-- Python `s.rsplit(sep, 1)` for a one-character separator: split at the LAST
occurrence of `c`. Returns `none` when `c` does not occur (Python returns the
one-element list `[s]` in that case). -/
def rsplitOnce (c : Char) : Str → Option (Str × Str)
  | [] => none
  | a :: rest =>
    match rsplitOnce c rest with
    | some (l, r) => some (a :: l, r)
    | none => if a = c then some ([], rest) else none

/-- `identifiers.rsplit("_", 1)[-1]`: the part after the last underscore, or the
whole string when there is none. -/
def lastAfterUnderscore (ident : Str) : Str :=
  match rsplitOnce '_' ident with
  | some (_, r) => r
  | none => ident

/-- `SteamTopSellers.format_group_origin` (src/main.py lines 329-344): split the
origin at its last colon; if there is no colon, or the part before it does not
contain "GroupMessage", return the origin unchanged; otherwise drop everything
up to the last underscore of the trailing identifier segment. -/
def format_group_origin (origin_id : Str) : Str :=
  match rsplitOnce ':' origin_id with
  | none => origin_id
  | some (pre, identifiers) =>
    if containsSub (str "GroupMessage") pre then
      pre ++ ':' :: lastAfterUnderscore identifiers
    else origin_id

/-- In-memory subscription set plus the durable file's content (the full set
written by `_save_subscribed_groups`; a failed write is logged, so the model
records the content handed to the write). -/
structure Store where
  mem : Finset Str
  file : Finset Str
  deriving DecidableEq

/-- `SteamTopSellers.add_daily_report_group` (src/main.py lines 207-217): the
origin is canonicalized with `format_group_origin`; if the canonical id is
already subscribed, nothing changes and the reply is "already subscribed"
(`false`); otherwise the id is added, the whole set is saved, and the reply is
success (`true`). -/
def add_daily_report_group (st : Store) (origin : Str) : Store × Bool :=
  let subscribe_id := format_group_origin origin
  if subscribe_id ∈ st.mem then (st, false)
  else
    let m := insert subscribe_id st.mem
    ({ mem := m, file := m }, true)

/-- `SteamTopSellers.remove_daily_report_group` (src/main.py lines 223-233): the
origin is canonicalized with `format_group_origin`; if the canonical id is not
subscribed, nothing changes and the reply is "not subscribed" (`false`);
otherwise the id is removed, the whole set is saved, and the reply is success
(`true`). -/
def remove_daily_report_group (st : Store) (origin : Str) : Store × Bool :=
  let subscribe_id := format_group_origin origin
  if subscribe_id ∈ st.mem then
    let m := st.mem.erase subscribe_id
    ({ mem := m, file := m }, true)
  else (st, false)

/-- Static group entry added by `_load_subscribed_groups`:
`f"aiocqhttp:GroupMessage:{group_id}"`. -/
def tagGroup (group_id : Str) : Str := str "aiocqhttp:GroupMessage:" ++ group_id

/-- Static sender entry added by `_load_subscribed_groups`:
`f"aiocqhttp:FriendMessage:{sender_id}"`. -/
def tagSender (sender_id : Str) : Str := str "aiocqhttp:FriendMessage:" ++ sender_id

/-- Outcome of probing and reading the durable subscriptions file. -/
inductive FileState where
  | missing
  | readError
  | content (entries : List Str)

/-- `SteamTopSellers._load_subscribed_groups` (src/main.py lines 46-68), started
from the freshly initialized empty in-memory set. Result: the in-memory set and
the content handed to `_save_subscribed_groups` (`none` when no save is made).
When the file exists and parses, the persisted entries are loaded, the static
group and sender entries are added, and the merged set is saved. When reading
or parsing fails, only an error is logged. When the file is missing, the
(empty) set is saved. -/
def loadSubscribedGroups (file : FileState) (mgroups msenders : List Str) :
    Finset Str × Option (Finset Str) :=
  match file with
  | .content entries =>
    let s := entries.toFinset ∪ (mgroups.map tagGroup).toFinset
        ∪ (msenders.map tagSender).toFinset
    (s, some s)
  | .readError => (∅, none)
  | .missing => (∅, some ∅)

/-- Result of one run of the fan-out job: the recipients to which the report was
delivered, whether an exception was caught by the job-level handler (aborting
the loop), and whether the run exited early with no report built. -/
structure JobResult where
  delivered : List Str
  aborted : Bool
  skipped : Bool
  deriving DecidableEq

/-- The delivery loop of `_send_daily_report`: recipients are visited in order;
a raising send escapes to the job-level `except` handler, which logs and
returns, so recipients after the first failure are never attempted. -/
def deliverLoop (send : Str → Bool) : List Str → List Str × Bool
  | [] => ([], false)
  | g :: rest =>
    if send g then
      let (d, ab) := deliverLoop send rest
      (g :: d, ab)
    else ([], true)

/-- `SteamTopSellers._send_daily_report` (src/main.py lines 114-141): exit if no
group is subscribed; exit if the report failed to build (`none`); otherwise
deliver the one built report to each subscriber, where any send failure is
caught (and logged) by the single `try/except` wrapped around the whole loop.
`send g = false` models `context.send_message` raising for recipient `g`. -/
def sendDailyReport (subscribed : List Str) (report : Option Str)
    (send : Str → Bool) : JobResult :=
  if subscribed.isEmpty then { delivered := [], aborted := false, skipped := true }
  else
    match report with
    | none => { delivered := [], aborted := false, skipped := false }
    | some _ =>
      let (d, ab) := deliverLoop send subscribed
      { delivered := d, aborted := ab, skipped := false }

/-- The effective entry count of `_generate_report_text` (src/main.py lines
143-146): `num = num or self.default_top_num` (Python `or` falls back on the
falsy values `None` and `0`), then `num = max(1, min(num, 25))`. -/
def effectiveLimit (num : Option Int) (default_top_num : Int) : Int :=
  let n :=
    match num with
    | none => default_top_num
    | some v => if v = 0 then default_top_num else v
  max 1 (min n 25)

/-- Armed scheduler state: the parsed trigger time and the fixed job id. -/
structure Sched where
  hour : Nat
  minute : Nat
  jobId : Str
  deriving DecidableEq

/-- `SteamTopSellers._start_scheduler` (src/main.py lines 80-94):
`hour, minute = self.parse_time_string(self.remind_time)` raises `TypeError`
when the parser returns `None` (there is no guard), modelled as `Except.error`;
otherwise, when no scheduler exists yet, one recurring job is armed. -/
def startScheduler (remind_time : Str) (scheduler : Option Sched) :
    Except Str (Option Sched) :=
  match parse_time_string remind_time with
  | none => Except.error (str "TypeError: cannot unpack non-iterable NoneType object")
  | some (hour, minute) =>
    match scheduler with
    | none => Except.ok (some ⟨hour, minute, str "daily_steam_report"⟩)
    | some s => Except.ok (some s)

/-- The scheduler part of `SteamTopSellers.__init__` (src/main.py lines 38-42):
`self.scheduler = None`, then `if self.remind_time: self._start_scheduler()`
(the empty string is falsy). An exception raised by `_start_scheduler`
propagates out of `__init__`. -/
def initScheduler (remind_time : Str) : Except Str (Option Sched) :=
  if remind_time.isEmpty then Except.ok none
  else startScheduler remind_time none

/-- Character class `[\d\.]` of the discount pattern. -/
def isAmountChar (c : Char) : Bool := c.isDigit || c = '.'

/-- Regex fragment `¥\s*[\d\.]+` at the current position. Returns the captured
text and the remainder. The character classes of adjacent greedy pieces are
disjoint, so maximal munch coincides with the backtracking semantics. -/
def matchAmount : Str → Option (Str × Str)
  | '¥' :: rest =>
    let sp := rest.takeWhile isPySpace
    let rest2 := rest.dropWhile isPySpace
    let ds := rest2.takeWhile isAmountChar
    let rest3 := rest2.dropWhile isAmountChar
    if ds.isEmpty then none else some ('¥' :: sp ++ ds, rest3)
  | _ => none

/-- The discount pattern `(-(\d+)%)\s*(¥\s*[\d\.]+)\s*(¥\s*[\d\.]+)` anchored at
the current position. Returns the captured groups 2 (percentage digits),
3 (original price) and 4 (final price). -/
def matchDiscountAt : Str → Option (Str × Str × Str)
  | '-' :: rest =>
    let ds := rest.takeWhile Char.isDigit
    let rest2 := rest.dropWhile Char.isDigit
    if ds.isEmpty then none
    else
      match rest2 with
      | '%' :: rest3 =>
        match matchAmount (rest3.dropWhile isPySpace) with
        | some (amt1, rest4) =>
          match matchAmount (rest4.dropWhile isPySpace) with
          | some (amt2, _) => some (ds, amt1, amt2)
          | none => none
        | none => none
      | _ => none
  | _ => none

/-- `discount_pattern.search`: try the anchored pattern at each position from
the left, as Python `re.search` does. -/
def searchDiscount : Str → Option (Str × Str × Str)
  | [] => none
  | c :: rest =>
    match matchDiscountAt (c :: rest) with
    | some r => some r
    | none => searchDiscount rest

/-- The first line of `_format_price`:
`price_text.strip().replace(",", ".")`. -/
def normalizePriceText (s : Str) : Str :=
  (pyStrip s).map (fun c => if c = ',' then '.' else c)

/-- `SteamTopSellers._format_price` (src/main.py lines 96-111): strip, replace
every comma with a dot, short-circuit to "免费开玩" when a free marker ("免费"
or "Free") occurs, otherwise search for the discount pattern and, on a match,
render `f"{final_price} (原价: {original_price}, {discount})"` (groups 3 and 4
are stripped); with no match, return the normalized text unchanged. -/
def format_price (price_text : Str) : Str :=
  let t := normalizePriceText price_text
  if containsSub (str "免费") t || containsSub (str "Free") t then str "免费开玩"
  else
    match searchDiscount t with
    | some (pct, original, final) =>
      pyStrip final ++ str " (原价: " ++ pyStrip original ++ str ", "
        ++ ('-' :: pct ++ ['%']) ++ str ")"
    | none => t

theorem rsplitOnce_eq_none_iff (c : Char) (s : Str) :
    rsplitOnce c s = none ↔ c ∉ s := by
  induction s with
  | nil => simp [rsplitOnce]
  | cons a rest ih =>
    cases h : rsplitOnce c rest with
    | some p =>
      have hc : c ∈ rest := by
        by_contra hc
        exact Option.noConfusion ((ih.mpr hc).symm.trans h)
      simp only [rsplitOnce, h, List.mem_cons]
      constructor
      · intro hx; exact Option.noConfusion hx
      · intro hx; exact absurd (Or.inr hc) hx
    | none =>
      have hrest : c ∉ rest := ih.mp h
      simp only [rsplitOnce, h, List.mem_cons]
      by_cases hac : a = c
      · subst hac
        simp
      · simp only [hac, if_neg hac]
        constructor
        · intro _ hx
          rcases hx with hx | hx
          · exact hac hx.symm
          · exact hrest hx
        · intro _; rfl

theorem not_mem_right_of_rsplitOnce {c : Char} {s l r : Str}
    (h : rsplitOnce c s = some (l, r)) : c ∉ r := by
  induction s generalizing l with
  | nil => simp [rsplitOnce] at h
  | cons a rest ih =>
    simp only [rsplitOnce] at h
    cases hrec : rsplitOnce c rest with
    | some p =>
      rw [hrec] at h
      cases p with
      | mk l0 r0 =>
        simp only [Option.some.injEq, Prod.mk.injEq] at h
        obtain ⟨_, hr⟩ := h
        subst hr
        exact ih hrec
    | none =>
      rw [hrec] at h
      by_cases hac : a = c
      · subst hac
        rw [if_pos rfl] at h
        simp only [Option.some.injEq, Prod.mk.injEq] at h
        obtain ⟨hl, hr⟩ := h
        subst hr
        exact (rsplitOnce_eq_none_iff _ rest).mp hrec
      · simp [hac] at h

theorem mem_of_rsplitOnce_right {c : Char} {s l r : Str} {x : Char}
    (h : rsplitOnce c s = some (l, r)) (hx : x ∈ r) : x ∈ s := by
  induction s generalizing l with
  | nil => simp [rsplitOnce] at h
  | cons a rest ih =>
    simp only [rsplitOnce] at h
    cases hrec : rsplitOnce c rest with
    | some p =>
      rw [hrec] at h
      cases p with
      | mk l0 r0 =>
        simp only [Option.some.injEq, Prod.mk.injEq] at h
        obtain ⟨_, hr⟩ := h
        subst hr
        exact List.mem_cons_of_mem a (ih hrec)
    | none =>
      rw [hrec] at h
      by_cases hac : a = c
      · subst hac
        rw [if_pos rfl] at h
        simp only [Option.some.injEq, Prod.mk.injEq] at h
        obtain ⟨hl, hr⟩ := h
        subst hr
        exact List.mem_cons_of_mem a hx
      · simp [hac] at h

theorem rsplitOnce_append_last {c : Char} {r : Str} (hr : c ∉ r) (l : Str) :
    rsplitOnce c (l ++ c :: r) = some (l, r) := by
  induction l with
  | nil =>
    simp [rsplitOnce, (rsplitOnce_eq_none_iff c r).mpr hr]
  | cons a l ih =>
    simp [rsplitOnce, ih]

theorem lastAfterUnderscore_not_mem (ident : Str) : '_' ∉ lastAfterUnderscore ident := by
  unfold lastAfterUnderscore
  cases h : rsplitOnce '_' ident with
  | some p =>
    cases p with
    | mk l r => exact not_mem_right_of_rsplitOnce h
  | none => exact (rsplitOnce_eq_none_iff '_' ident).mp h

theorem mem_of_lastAfterUnderscore {ident : Str} {x : Char}
    (hx : x ∈ lastAfterUnderscore ident) : x ∈ ident := by
  unfold lastAfterUnderscore at hx
  cases h : rsplitOnce '_' ident with
  | some p =>
    cases p with
    | mk l r =>
      rw [h] at hx
      exact mem_of_rsplitOnce_right h hx
  | none =>
    rw [h] at hx
    exact hx

theorem lastAfterUnderscore_eq_of_not_mem {ident : Str} (h : '_' ∉ ident) :
    lastAfterUnderscore ident = ident := by
  unfold lastAfterUnderscore
  rw [(rsplitOnce_eq_none_iff '_' ident).mpr h]

theorem format_group_origin_group (pre rest : Str)
    (hg : containsSub (str "GroupMessage") pre = true) (hc : ':' ∉ rest) :
    format_group_origin (pre ++ ':' :: rest) = pre ++ ':' :: lastAfterUnderscore rest := by
  unfold format_group_origin
  rw [rsplitOnce_append_last hc pre]
  simp [hg]

/-- C9: `format_group_origin` is idempotent, and an origin with no colon, or
whose segment before the last colon does not contain "GroupMessage" (e.g. a
FriendMessage origin), is returned unchanged. -/
theorem c9_format_group_origin_idempotent :
    (∀ x : Str, format_group_origin (format_group_origin x) = format_group_origin x)
    ∧ (∀ (x pre ident : Str), rsplitOnce ':' x = some (pre, ident) →
        containsSub (str "GroupMessage") pre = false → format_group_origin x = x)
    ∧ (∀ x : Str, rsplitOnce ':' x = none → format_group_origin x = x) := by
  refine ⟨?_, ?_, ?_⟩
  · intro x
    cases h : rsplitOnce ':' x with
    | none =>
      have hx : format_group_origin x = x := by simp [format_group_origin, h]
      rw [hx, hx]
    | some p =>
      cases p with
      | mk pre ident =>
        by_cases hg : containsSub (str "GroupMessage") pre = true
        · have hx : format_group_origin x = pre ++ ':' :: lastAfterUnderscore ident := by
            simp [format_group_origin, h, hg]
          have hcg : ':' ∉ lastAfterUnderscore ident :=
            fun hm => not_mem_right_of_rsplitOnce h (mem_of_lastAfterUnderscore hm)
          rw [hx, format_group_origin_group pre _ hg hcg,
            lastAfterUnderscore_eq_of_not_mem (lastAfterUnderscore_not_mem ident)]
        · have hg2 : containsSub (str "GroupMessage") pre = false := by
            simpa using hg
          have hx : format_group_origin x = x := by simp [format_group_origin, h, hg2]
          rw [hx, hx]
  · intro x pre ident h hg
    simp [format_group_origin, h, hg]
  · intro x h
    simp [format_group_origin, h]

/-- C9 witness: idempotence at a group origin with an embedded sender, and a
FriendMessage origin left unchanged. -/
theorem c9_witness :
    format_group_origin (format_group_origin (str "aiocqhttp:GroupMessage:999_123"))
      = format_group_origin (str "aiocqhttp:GroupMessage:999_123")
    ∧ format_group_origin (str "aiocqhttp:FriendMessage:777")
      = str "aiocqhttp:FriendMessage:777" := by
  refine ⟨c9_format_group_origin_idempotent.1 _, ?_⟩
  exact c9_format_group_origin_idempotent.2.1 _ (str "aiocqhttp:FriendMessage")
    (str "777") (by decide) (by decide)

/-- C7: two origins denoting the same group conversation, one with a sender id
joined to the group id by an underscore, canonicalize to the same id via
`format_group_origin`, and the subscribe and unsubscribe commands (which both
canonicalize before consulting or mutating the set) behave identically on them. -/
theorem c7_group_identity_is_subscription_unit (st : Store) (pre sid gid : Str)
    (hg : containsSub (str "GroupMessage") pre = true)
    (hsid : ':' ∉ sid) (hgid : ':' ∉ gid) (hu : '_' ∉ gid) :
    format_group_origin (pre ++ ':' :: (sid ++ '_' :: gid))
        = format_group_origin (pre ++ ':' :: gid)
    ∧ add_daily_report_group st (pre ++ ':' :: (sid ++ '_' :: gid))
        = add_daily_report_group st (pre ++ ':' :: gid)
    ∧ remove_daily_report_group st (pre ++ ':' :: (sid ++ '_' :: gid))
        = remove_daily_report_group st (pre ++ ':' :: gid) := by
  have hc1 : ':' ∉ (sid ++ '_' :: gid) := by
    intro hm
    rcases List.mem_append.mp hm with hm | hm
    · exact hsid hm
    · rcases List.mem_cons.mp hm with hm | hm
      · exact absurd hm (by decide)
      · exact hgid hm
  have hfmt : format_group_origin (pre ++ ':' :: (sid ++ '_' :: gid))
      = format_group_origin (pre ++ ':' :: gid) := by
    rw [format_group_origin_group pre _ hg hc1, format_group_origin_group pre gid hg hgid]
    rw [lastAfterUnderscore_eq_of_not_mem hu]
    unfold lastAfterUnderscore
    rw [rsplitOnce_append_last hu sid]
  exact ⟨hfmt, by unfold add_daily_report_group; rw [hfmt],
    by unfold remove_daily_report_group; rw [hfmt]⟩

/-- C7 witness: concrete group origins "aiocqhttp:GroupMessage:999_123" and
"aiocqhttp:GroupMessage:123" canonicalize identically and the subscribe command
treats them identically. -/
theorem c7_witness :
    format_group_origin (str "aiocqhttp:GroupMessage:999_123")
      = format_group_origin (str "aiocqhttp:GroupMessage:123")
    ∧ add_daily_report_group ⟨∅, ∅⟩ (str "aiocqhttp:GroupMessage:999_123")
      = add_daily_report_group ⟨∅, ∅⟩ (str "aiocqhttp:GroupMessage:123") := by
  have h := c7_group_identity_is_subscription_unit ⟨∅, ∅⟩
    (str "aiocqhttp:GroupMessage") (str "999") (str "123")
    (by decide) (by decide) (by decide) (by decide)
  exact ⟨h.1, h.2.1⟩

/-- C8: the subscribe command inserts the canonical id and persists the new set
exactly when the id is absent (reporting success), and is a no-op reporting
"already subscribed" when present; the unsubscribe command removes and persists
exactly when the id is present, and is a no-op reporting "not subscribed"
otherwise. -/
theorem c8_add_remove_semantics (st : Store) (origin : Str) :
    (format_group_origin origin ∉ st.mem →
      add_daily_report_group st origin =
        (⟨insert (format_group_origin origin) st.mem,
          insert (format_group_origin origin) st.mem⟩, true))
    ∧ (format_group_origin origin ∈ st.mem →
      add_daily_report_group st origin = (st, false))
    ∧ (format_group_origin origin ∈ st.mem →
      remove_daily_report_group st origin =
        (⟨st.mem.erase (format_group_origin origin),
          st.mem.erase (format_group_origin origin)⟩, true))
    ∧ (format_group_origin origin ∉ st.mem →
      remove_daily_report_group st origin = (st, false)) := by
  refine ⟨fun h => ?_, fun h => ?_, fun h => ?_, fun h => ?_⟩ <;>
    simp [add_daily_report_group, remove_daily_report_group, h]

/-- C8 witness: subscribing a fresh id inserts and persists it, subscribing it
again is a no-op, and unsubscribing a never-added id is a no-op. -/
theorem c8_witness :
    add_daily_report_group ⟨∅, ∅⟩ (str "aiocqhttp:GroupMessage:123")
      = (⟨{str "aiocqhttp:GroupMessage:123"}, {str "aiocqhttp:GroupMessage:123"}⟩, true)
    ∧ (add_daily_report_group
        (add_daily_report_group ⟨∅, ∅⟩ (str "aiocqhttp:GroupMessage:123")).1
        (str "aiocqhttp:GroupMessage:123")).2 = false
    ∧ remove_daily_report_group ⟨∅, ∅⟩ (str "aiocqhttp:FriendMessage:9")
      = (⟨∅, ∅⟩, false) := by
  refine ⟨?_, ?_, ?_⟩
  · have h := (c8_add_remove_semantics ⟨∅, ∅⟩ (str "aiocqhttp:GroupMessage:123")).1
      (by decide)
    exact h.trans (by decide)
  · have h := (c8_add_remove_semantics
        (add_daily_report_group ⟨∅, ∅⟩ (str "aiocqhttp:GroupMessage:123")).1
        (str "aiocqhttp:GroupMessage:123")).2.1 (by decide)
    rw [h]
  · exact (c8_add_remove_semantics ⟨∅, ∅⟩ (str "aiocqhttp:FriendMessage:9")).2.2.2
      (by decide)

theorem deliverLoop_eq (send : Str → Bool) (l : List Str) :
    deliverLoop send l = (l.takeWhile send, l.any (fun g => !send g)) := by
  induction l with
  | nil => simp [deliverLoop]
  | cons g rest ih =>
    by_cases h : send g = true
    · simp [deliverLoop, h, ih, List.takeWhile_cons, List.any_cons]
    · have h2 : send g = false := by simpa using h
      simp [deliverLoop, h2, List.takeWhile_cons, List.any_cons]

/-- C1 counterexample: with subscribers g1, g2, g3 where sending to g2 raises,
the job delivers to g1 only — g3 never receives the report, refuting
per-recipient isolation. -/
theorem c1_counterexample :
    (fun g => decide (g ≠ str "g2")) (str "g3") = true
    ∧ (sendDailyReport [str "g1", str "g2", str "g3"] (some (str "report"))
        (fun g => decide (g ≠ str "g2"))).delivered = [str "g1"]
    ∧ str "g3" ∉ (sendDailyReport [str "g1", str "g2", str "g3"] (some (str "report"))
        (fun g => decide (g ≠ str "g2"))).delivered := by
  refine ⟨by decide, ?_, ?_⟩ <;>
    simp [sendDailyReport, deliverLoop, str]

/-- C1 (amended): a delivery failure is caught and logged by the single
job-level exception handler, which aborts delivery to the recipients remaining
in iteration order: exactly the longest failure-free front of the recipient
list is delivered, the aborted flag records whether any send failed, and the
job itself returns instead of raising. -/
theorem c1_failure_aborts_remaining_recipients (subs : List Str) (rep : Str)
    (send : Str → Bool) :
    (sendDailyReport subs (some rep) send).delivered = subs.takeWhile send
    ∧ (sendDailyReport subs (some rep) send).aborted = subs.any (fun g => !send g)
    ∧ (sendDailyReport subs (some rep) send).skipped = subs.isEmpty := by
  cases subs with
  | nil => simp [sendDailyReport]
  | cons g rest =>
    simp [sendDailyReport, deliverLoop_eq]

/-- C2: on an unparseable remind time the spec requires a logged warning and an
unarmed scheduler, but `_start_scheduler` unpacks the `None` returned by
`parse_time_string` without a guard, so initialization raises `TypeError`. -/
theorem c2_invalid_remind_time_raises :
    parse_time_string (str "garbage") = none
    ∧ initScheduler (str "garbage")
      = Except.error (str "TypeError: cannot unpack non-iterable NoneType object") := by
  constructor
  · decide
  · rfl

/-- C3 counterexample: requesting 0 entries with a configured default of 5
yields limit 5, not the clamp value 1 claimed by the spec. -/
theorem c3_counterexample :
    effectiveLimit (some 0) 5 = 5 ∧ effectiveLimit (some 0) 5 ≠ max 1 (min 0 25) := by
  constructor <;> decide

/-- C3 (amended): for every nonzero integer argument the effective limit is
clamp(n, 1, 25); the argument 0 is falsy in Python, so it falls back to the
configured default count, which is then clamped. -/
theorem c3_limit_clamped_except_zero (n d : Int) :
    (n ≠ 0 → effectiveLimit (some n) d = max 1 (min n 25))
    ∧ (n = 0 → effectiveLimit (some n) d = max 1 (min d 25)) := by
  constructor <;> intro h <;> simp [effectiveLimit, h]

/-- C3 witness: 30 clamps to 25 and -3 clamps to 1 regardless of the default. -/
theorem c3_witness :
    effectiveLimit (some 30) 7 = 25 ∧ effectiveLimit (some (-3)) 7 = 1 := by
  constructor
  · exact ((c3_limit_clamped_except_zero 30 7).1 (by decide)).trans (by decide)
  · exact ((c3_limit_clamped_except_zero (-3) 7).1 (by decide)).trans (by decide)

/-- C4 counterexample: with the durable file absent and a configured static
group "123", the load persists an empty set and the static entry
"aiocqhttp:GroupMessage:123" is in neither the in-memory set nor the persisted
content, refuting "merged on every load". -/
theorem c4_counterexample :
    loadSubscribedGroups FileState.missing [str "123"] [] = (∅, some ∅)
    ∧ tagGroup (str "123") ∉ (loadSubscribedGroups FileState.missing [str "123"] []).1 := by
  refine ⟨rfl, ?_⟩
  simp [loadSubscribedGroups]

/-- C4 (amended): the static group and sender entries are merged (idempotently,
by set insertion) and the merged set persisted only when the durable file
exists and reads and parses successfully; a missing file persists the empty set
with no merge, and a read/parse failure merges and persists nothing. -/
theorem c4_static_merge_only_on_successful_load (entries mgroups msenders : List Str) :
    ((loadSubscribedGroups (FileState.content entries) mgroups msenders).2
      = some (loadSubscribedGroups (FileState.content entries) mgroups msenders).1)
    ∧ (∀ x : Str, x ∈ (loadSubscribedGroups (FileState.content entries) mgroups msenders).1
        ↔ (x ∈ entries ∨ x ∈ mgroups.map tagGroup ∨ x ∈ msenders.map tagSender))
    ∧ loadSubscribedGroups FileState.missing mgroups msenders = (∅, some ∅)
    ∧ loadSubscribedGroups FileState.readError mgroups msenders = (∅, none) := by
  refine ⟨rfl, ?_, rfl, rfl⟩
  intro x
  simp [loadSubscribedGroups, or_assoc]

/-- C5: the worked examples of the Time Specification Parser: "0835", "08:35",
"8:35" and the full-width-colon "8：35" all parse to hour 8, minute 35, while
"25:00", "08:61" and "garbage" are rejected. -/
theorem c5_parse_time_examples :
    parse_time_string (str "0835") = some (8, 35)
    ∧ parse_time_string (str "08:35") = some (8, 35)
    ∧ parse_time_string (str "8:35") = some (8, 35)
    ∧ parse_time_string (str "8：35") = some (8, 35)
    ∧ parse_time_string (str "25:00") = none
    ∧ parse_time_string (str "08:61") = none
    ∧ parse_time_string (str "garbage") = none := by
  refine ⟨?_, ?_, ?_, ?_, ?_, ?_, ?_⟩ <;> decide

/-- C6 counterexample: the discount example renders the original-price label as
the code's Chinese "原价", not the English "original" of the claim. -/
theorem c6_counterexample :
    format_price (str "-10%¥ 28,49¥ 25,64") ≠ str "¥ 25.64 (original: ¥ 28.49, -10%)" := by
  decide

/-- C6 (amended): for every raw price text without a free marker whose
normalized form matches the discount pattern with percentage digits `pct`,
original amount `original` and final amount `final`, the normalizer returns the
final price annotated with the original price and the percentage, in the form
`<final> (原价: <original>, -<pct>%)`. -/
theorem c6_discount_template (s pct original final : Str)
    (hfree1 : containsSub (str "免费") (normalizePriceText s) = false)
    (hfree2 : containsSub (str "Free") (normalizePriceText s) = false)
    (hm : searchDiscount (normalizePriceText s) = some (pct, original, final)) :
    format_price s = pyStrip final ++ str " (原价: " ++ pyStrip original ++ str ", "
      ++ ('-' :: pct ++ ['%']) ++ str ")" := by
  simp [format_price, hfree1, hfree2, hm]

/-- C6 witness: the spec's worked discount example, with the code's label. -/
theorem c6_witness :
    format_price (str "-10%¥ 28,49¥ 25,64") = str "¥ 25.64 (原价: ¥ 28.49, -10%)" := by
  have h := c6_discount_template (str "-10%¥ 28,49¥ 25,64") (str "10")
    (str "¥ 28.49") (str "¥ 25.64") (by decide) (by decide) (by decide)
  exact h.trans (by decide)

theorem tryMinute_take {k : Nat} (hk : 2 ≤ k) (l : Str) :
    tryMinute (l.take k) = tryMinute l := by
  cases l with
  | nil => simp
  | cons a rest =>
    cases rest with
    | nil =>
      rw [List.take_of_length_le (by simp; omega)]
    | cons b rest2 =>
      obtain ⟨k2, rfl⟩ : ∃ k2, k = k2 + 2 := ⟨k - 2, by omega⟩
      simp only [List.take_succ_cons]
      rfl

theorem tryColonMinute_take {k : Nat} (hk : 3 ≤ k) (l : Str) :
    tryColonMinute (l.take k) = tryColonMinute l := by
  cases l with
  | nil => simp
  | cons a rest =>
    obtain ⟨k1, rfl⟩ : ∃ k1, k = k1 + 1 := ⟨k - 1, by omega⟩
    simp only [List.take_succ_cons, tryColonMinute]
    by_cases ha : a = ':'
    · rw [if_pos ha, if_pos ha, tryMinute_take (by omega)]
    · rw [if_neg ha, if_neg ha]

theorem matchTimePattern_take (l : Str) :
    matchTimePattern (l.take 5) = matchTimePattern l := by
  cases l with
  | nil => simp
  | cons d1 rest1 =>
    cases rest1 with
    | nil =>
      rw [List.take_of_length_le (by simp)]
    | cons d2 rest2 =>
      simp only [List.take_succ_cons]
      show matchTimePattern (d1 :: d2 :: rest2.take 3) = matchTimePattern (d1 :: d2 :: rest2)
      have h2 : twoDigitHourAlt d1 d2 (rest2.take 3) = twoDigitHourAlt d1 d2 rest2 := by
        unfold twoDigitHourAlt
        rw [tryColonMinute_take (by omega), tryMinute_take (by omega)]
      have h1 : oneDigitHourAlt d1 (d2 :: rest2.take 3) = oneDigitHourAlt d1 (d2 :: rest2) := by
        unfold oneDigitHourAlt
        rw [show d2 :: rest2.take 3 = (d2 :: rest2).take 4 from rfl]
        rw [tryColonMinute_take (by omega), tryMinute_take (by omega)]
      simp only [matchTimePattern, h2, h1]

/-- C10 counterexample: "456" parses to (4, 56), yet appending a digit gives
"4567", whose greedy leading match is hour "45" / minute "67" and is rejected
by the hour range check — trailing text CAN cause rejection. -/
theorem c10_counterexample :
    parse_time_string (str "456") = some (4, 56)
    ∧ parse_time_string (str "4567") = none := by
  constructor <;> decide

/-- C10 (amended): `parse_time_string` matches only a leading portion — its
result depends on at most the first five characters, so text after that window
is always ignored, and "08:35:59" and "0835xyz" both parse to (8, 35); trailing
characters within reach of the greedy leading match, however, can alter the
match itself and turn acceptance into rejection. -/
theorem c10_leading_window :
    (∀ s : Str, parse_time_string (s.take 5) = parse_time_string s)
    ∧ parse_time_string (str "08:35:59") = some (8, 35)
    ∧ parse_time_string (str "0835xyz") = some (8, 35) := by
  refine ⟨?_, by decide, by decide⟩
  intro s
  unfold parse_time_string
  simp only [List.map_take, matchTimePattern_take]
